import Mathlib

set_option maxRecDepth 100000

/-!
Shallow embedding of the pngme chunk codec (src/crc.rs, src/chunk_type.rs,
src/chunk.rs).  Bytes are modelled as `Nat` (machine bytes are `< 256`), u32
arithmetic as `Nat` with explicit `% 2^32`-style masking where the Rust code
truncates.  Fallible operations return `Except`/`ParseResult`; a Rust panic
(out-of-bounds slice index) is a distinguished `ParseResult` outcome.
-/

/-- Error kinds of the codec, as named by the specification.  Each corresponds
to one `anyhow!` message in the source:
`invalidCharacter` = "chunk types must be ascii characters",
`tooShort` = "Too short chunk data",
`tooLargeLength` = "Too large length",
`lengthExceedsBuffer` = "Too large length, larger than remaining data",
`crcMismatch` = "Incorrect chunk CRC",
`trailingData` = "Trailing data left after chunk". -/
inductive PngError where
  | invalidCharacter
  | tooShort
  | tooLargeLength
  | lengthExceedsBuffer
  | crcMismatch
  | trailingData
deriving DecidableEq, Repr

/-- Outcome of a parsing operation: success, a returned error, or a Rust
panic (slice index out of bounds). -/
inductive ParseResult (α : Type) where
  | ok : α → ParseResult α
  | err : PngError → ParseResult α
  | outOfBoundsPanic : ParseResult α
deriving DecidableEq, Repr

/-! ## CRC engine (src/crc.rs) -/

/-- One round of the table-generation loop in `crc_table`:
`if c & 1 != 0 { c = 0xedb8_8320 ^ (c >> 1) } else { c = c >> 1 }`. -/
def crcTableStep (c : Nat) : Nat :=
  if c % 2 = 1 then 0xedb88320 ^^^ (c / 2) else c / 2

/-- The `for _ in 0..8` loop of `crc_table`. -/
def crcTableIter : Nat → Nat → Nat
  | 0, c => c
  | k + 1, c => crcTableIter k (crcTableStep c)

/-- `crc_table(n: u8) -> u32` from src/crc.rs; the `% 256` models the `u8`
argument type. -/
def crc_table (n : Nat) : Nat := crcTableIter 8 (n % 256)

namespace Crc

/-- `Crc::new()`: accumulator `!0` on u32. -/
def new : Nat := 0xffffffff

/-- `Crc::get()`: one's complement of the accumulator (u32 `!`). -/
def get (s : Nat) : Nat := s ^^^ 0xffffffff

/-- `Crc::update_byte`: `index = (self.0 ^ u32::from(byte)) & 0xff;`
`Self(crc_table(index as u8) ^ (self.0 >> 8))`.  `& 0xff` is `% 256` and
`>> 8` is `/ 256` on `Nat`. -/
def update_byte (s b : Nat) : Nat :=
  crc_table ((s ^^^ b) % 256) ^^^ (s / 256)

/-- `Crc::update`: left fold of `update_byte` over the byte sequence. -/
def update (s : Nat) (data : List Nat) : Nat :=
  data.foldl update_byte s

end Crc

/-! ## Chunk types (src/chunk_type.rs) -/

/-- `valid_chunk_character`: ASCII `A`-`Z` (65–90) or `a`-`z` (97–122). -/
def valid_chunk_character (value : Nat) : Bool :=
  (65 ≤ value && value ≤ 90) || (97 ≤ value && value ≤ 122)

/-- `is_lowercase`: ASCII `a`-`z` (97–122). -/
def is_lowercase (value : Nat) : Bool :=
  97 ≤ value && value ≤ 122

/-- `ChunkType([u8; 4])`: the four tag bytes. -/
structure ChunkType where
  b0 : Nat
  b1 : Nat
  b2 : Nat
  b3 : Nat
deriving DecidableEq, Repr

namespace ChunkType

/-- `ChunkType::new`: rejects the tag unless all four bytes are ASCII
letters. -/
def new (a b c d : Nat) : Except PngError ChunkType :=
  if valid_chunk_character a && valid_chunk_character b &&
      valid_chunk_character c && valid_chunk_character d then
    Except.ok ⟨a, b, c, d⟩
  else
    Except.error PngError.invalidCharacter

/-- `ChunkType::bytes`: the raw 4-byte tag. -/
def bytes (t : ChunkType) : List Nat := [t.b0, t.b1, t.b2, t.b3]

/-- `ChunkType::is_critical`: `is_lowercase(self.0[0]) == false`. -/
def is_critical (t : ChunkType) : Bool := is_lowercase t.b0 == false

/-- `ChunkType::is_public`: `is_lowercase(self.0[1]) == false`. -/
def is_public (t : ChunkType) : Bool := is_lowercase t.b1 == false

/-- `ChunkType::is_reserved_bit_valid`: `is_lowercase(self.0[2]) == false`. -/
def is_reserved_bit_valid (t : ChunkType) : Bool := is_lowercase t.b2 == false

/-- `ChunkType::is_safe_to_copy`: `is_lowercase(self.0[3]) == true`. -/
def is_safe_to_copy (t : ChunkType) : Bool := is_lowercase t.b3 == true

/-- `ChunkType::is_valid`: delegates to `is_reserved_bit_valid`. -/
def is_valid (t : ChunkType) : Bool := t.is_reserved_bit_valid

end ChunkType

/-! ## Chunks (src/chunk.rs) -/

/-- `u32::to_be_bytes`, big-endian. -/
def u32_to_be_bytes (v : Nat) : List Nat :=
  [v / 16777216 % 256, v / 65536 % 256, v / 256 % 256, v % 256]

/-- `u32::from_be_bytes` on a 4-byte slice. -/
def u32_from_be_bytes (l : List Nat) : Nat :=
  match l with
  | [a, b, c, d] => ((a * 256 + b) * 256 + c) * 256 + d
  | _ => 0

/-- `Chunk`: a chunk type together with its payload. -/
structure Chunk where
  chunk_type : ChunkType
  data : List Nat
deriving DecidableEq, Repr

namespace Chunk

/-- `Chunk::new`. -/
def new (t : ChunkType) (d : List Nat) : Chunk := ⟨t, d⟩

/-- `Chunk::length`: `self.data.len().try_into().unwrap()`; the `unwrap`
panics only for payloads of at least `2^32` bytes, which every theorem below
excludes, so the embedding returns the length unchanged. -/
def length (c : Chunk) : Nat := c.data.length

/-- `Chunk::crc`: CRC over the 4 type bytes followed by the payload. -/
def crc (c : Chunk) : Nat :=
  Crc.get (Crc.update (Crc.update Crc.new c.chunk_type.bytes) c.data)

/-- `Chunk::as_bytes`: `[length:4][type:4][data][crc:4]`, integers
big-endian. -/
def as_bytes (c : Chunk) : List Nat :=
  u32_to_be_bytes c.length ++ c.chunk_type.bytes ++ c.data ++
    u32_to_be_bytes c.crc

/-- `Chunk::parse_next` from src/chunk.rs, line by line:
length check (`< 12` → "Too short chunk data"), the `ChunkType::new`
validation, the `length > u32::max_value() - 4` check, the
`length + 4 < remaining.len()` check (note the direction: it fires when
bytes remain BEYOND the record), then the slices
`&remaining[..length]` and `&remaining[length..length + 4]`, which panic
when `remaining.len() < length + 4`, and finally the CRC comparison. -/
def parse_next (value : List Nat) : ParseResult (Chunk × List Nat) :=
  if value.length < 12 then ParseResult.err PngError.tooShort
  else
    let length := u32_from_be_bytes (value.take 4)
    let remaining := value.drop 8
    match ChunkType.new (value.getD 4 0) (value.getD 5 0)
        (value.getD 6 0) (value.getD 7 0) with
    | Except.error e => ParseResult.err e
    | Except.ok chunk_type =>
      if 4294967291 < length then ParseResult.err PngError.tooLargeLength
      else if length + 4 < remaining.length then
        ParseResult.err PngError.lengthExceedsBuffer
      else if remaining.length < length + 4 then
        ParseResult.outOfBoundsPanic
      else
        let data := remaining.take length
        let crcStored := u32_from_be_bytes ((remaining.drop length).take 4)
        let remaining2 := remaining.drop (length + 4)
        let chunk := Chunk.new chunk_type data
        if chunk.crc ≠ crcStored then ParseResult.err PngError.crcMismatch
        else ParseResult.ok (chunk, remaining2)

/-- `impl TryFrom<&[u8]> for Chunk`: `parse_next`, then reject a non-empty
remainder with "Trailing data left after chunk". -/
def tryFrom (value : List Nat) : ParseResult Chunk :=
  match parse_next value with
  | ParseResult.err e => ParseResult.err e
  | ParseResult.outOfBoundsPanic => ParseResult.outOfBoundsPanic
  | ParseResult.ok (chunk, remaining) =>
    if remaining ≠ [] then ParseResult.err PngError.trailingData
    else ParseResult.ok chunk

end Chunk

/-- The `"RuSt"` tag used by the repository's tests. -/
def rustType : ChunkType := ⟨82, 117, 83, 116⟩

/-- The bytes of `"This is where your secret message will be!"`, the payload
of the repository's known test vector. -/
def secretMessage : List Nat :=
  [84, 104, 105, 115, 32, 105, 115, 32, 119, 104, 101, 114, 101, 32, 121,
   111, 117, 114, 32, 115, 101, 99, 114, 101, 116, 32, 109, 101, 115, 115,
   97, 103, 101, 32, 119, 105, 108, 108, 32, 98, 101, 33]

/-! ## Arithmetic facts about the CRC accumulator -/

theorem crcTableStep_lt {c : Nat} (h : c < 4294967296) :
    crcTableStep c < 4294967296 := by
  unfold crcTableStep
  split
  · have h32 : (0xedb88320 : Nat) < 2 ^ 32 := by norm_num
    have hc : c / 2 < 2 ^ 32 := by omega
    have h := Nat.xor_lt_two_pow h32 hc
    omega
  · omega

theorem crcTableIter_lt : ∀ (k : Nat) {c : Nat}, c < 4294967296 →
    crcTableIter k c < 4294967296
  | 0, _, h => h
  | k + 1, _, h => crcTableIter_lt k (crcTableStep_lt h)

theorem crc_table_lt (n : Nat) : crc_table n < 4294967296 :=
  crcTableIter_lt 8 (by omega)

theorem update_byte_lt (s b : Nat) (hs : s < 4294967296) :
    Crc.update_byte s b < 4294967296 := by
  have h1 : crc_table ((s ^^^ b) % 256) < 2 ^ 32 := crc_table_lt _
  have h2 : s / 256 < 2 ^ 32 := by omega
  have h := Nat.xor_lt_two_pow h1 h2
  unfold Crc.update_byte
  omega

theorem update_lt : ∀ (d : List Nat) (s : Nat), s < 4294967296 →
    Crc.update s d < 4294967296
  | [], _, h => h
  | b :: d, s, h => by
    have := update_lt d (Crc.update_byte s b) (update_byte_lt s b h)
    simpa [Crc.update] using this

theorem get_lt (s : Nat) (hs : s < 4294967296) : Crc.get s < 4294967296 := by
  have h1 : (0xffffffff : Nat) < 2 ^ 32 := by norm_num
  have h := Nat.xor_lt_two_pow (by omega : s < 2 ^ 32) h1
  unfold Crc.get
  omega

theorem crc_lt (c : Chunk) : Chunk.crc c < 4294967296 :=
  get_lt _ (update_lt _ _ (update_lt _ _ (by norm_num [Crc.new])))

/-! ## Big-endian u32 serialization facts -/

theorem u32_to_be_bytes_length (v : Nat) : (u32_to_be_bytes v).length = 4 :=
  rfl

theorem u32_from_to (v : Nat) (hv : v < 4294967296) :
    u32_from_be_bytes (u32_to_be_bytes v) = v := by
  simp only [u32_to_be_bytes, u32_from_be_bytes]
  omega

theorem u32_to_from (a b c d : Nat) (ha : a < 256) (hb : b < 256)
    (hc : c < 256) (hd : d < 256) :
    u32_to_be_bytes (u32_from_be_bytes [a, b, c, d]) = [a, b, c, d] := by
  simp only [u32_to_be_bytes, u32_from_be_bytes, List.cons.injEq, and_true]
  refine ⟨?_, ?_, ?_, ?_⟩ <;> omega

theorem u32_from_lt (a b c d : Nat) (ha : a < 256) (hb : b < 256)
    (hc : c < 256) (hd : d < 256) :
    u32_from_be_bytes [a, b, c, d] < 4294967296 := by
  simp only [u32_from_be_bytes]
  omega

theorem u32_to_be_bytes_lt (v : Nat) :
    ∀ x ∈ u32_to_be_bytes v, x < 256 := by
  simp only [u32_to_be_bytes, List.mem_cons, List.not_mem_nil, or_false]
  rintro x (rfl | rfl | rfl | rfl) <;> omega

/-! ## Claim theorems: concrete evaluations and chunk-type properties -/

/-- C2: the spec claims `parse_next` tolerates trailing bytes, returning them
unconsumed.  Evaluating the code on the concatenation of two valid serialized
chunks (each a 12-byte empty-payload `"RuSt"` chunk) shows the first call
already fails with the "Too large length, larger than remaining data" error:
the bounds check `length + 4 < remaining.len()` is inverted and fires
exactly when extra bytes follow the record. -/
theorem parse_next_rejects_trailing_bytes :
    Chunk.parse_next (Chunk.as_bytes (Chunk.new rustType []) ++
        Chunk.as_bytes (Chunk.new rustType [])) =
      ParseResult.err PngError.lengthExceedsBuffer := by decide

/-- C3: the spec claims a declared length that would make the record exceed
the buffer is rejected with `LengthExceedsBuffer`.  On the 12-byte buffer
with declared length 1 and valid type `"RuSt"`, the inverted bounds check
passes and the code instead panics at the out-of-bounds slice
`&remaining[1..5]` (`remaining` has 4 bytes). -/
theorem parse_next_out_of_bounds :
    Chunk.parse_next [0, 0, 0, 1, 82, 117, 83, 116, 0, 0, 0, 0] =
      ParseResult.outOfBoundsPanic := by decide

/-- C6: the spec claims whole-buffer parse of a valid chunk followed by extra
bytes fails with `TrailingData`.  It does fail, but with the
`LengthExceedsBuffer` error propagated from `parse_next`'s inverted bounds
check; the `TrailingData` branch in `TryFrom` is unreachable. -/
theorem whole_buffer_concat_error :
    Chunk.tryFrom (Chunk.as_bytes (Chunk.new rustType []) ++
        Chunk.as_bytes (Chunk.new rustType [])) =
      ParseResult.err PngError.lengthExceedsBuffer := by decide

/-- C4 counterexample: the payload `"This is where your secret message will
be!"` has 42 bytes, not 44, so `length()` is not 44 as the claim states. -/
theorem known_vector_length_not_44 :
    Chunk.length (Chunk.new rustType secretMessage) ≠ 44 := by decide

/-- C4 (amended): for the chunk built from type `"RuSt"` and payload
`"This is where your secret message will be!"`, `length()` returns 42 and
`crc()` returns 2882656334. -/
theorem known_vector_length_and_crc :
    Chunk.length (Chunk.new rustType secretMessage) = 42 ∧
    Chunk.crc (Chunk.new rustType secretMessage) = 2882656334 := by decide

/-- C10: CRC incremental update is a homomorphism: updating with `a ++ b`
equals updating with `a` then `b`, updating with `[]` is the identity, and
`Chunk::crc` therefore equals the CRC-32 of the type bytes concatenated with
the payload. -/
theorem crc_update_homomorphism :
    (∀ (s : Nat) (a b : List Nat),
        Crc.update s (a ++ b) = Crc.update (Crc.update s a) b) ∧
    (∀ s : Nat, Crc.update s [] = s) ∧
    (∀ c : Chunk, Chunk.crc c =
        Crc.get (Crc.update Crc.new (c.chunk_type.bytes ++ c.data))) := by
  refine ⟨fun s a b => ?_, fun s => rfl, fun c => ?_⟩
  · simp [Crc.update, List.foldl_append]
  · simp [Chunk.crc, Crc.update, List.foldl_append]

/-- C8: `ChunkType::new` fails with `InvalidCharacter` exactly when some byte
is outside `A`-`Z` (65–90) and `a`-`z` (97–122), succeeds otherwise; in
particular `"Rust"` is constructible with `is_valid() = false` while
`"Ru1t"` is rejected. -/
theorem chunk_type_construction :
    (∀ a b c d : Nat,
      (ChunkType.new a b c d = Except.error PngError.invalidCharacter ↔
        ¬(((65 ≤ a ∧ a ≤ 90) ∨ (97 ≤ a ∧ a ≤ 122)) ∧
          ((65 ≤ b ∧ b ≤ 90) ∨ (97 ≤ b ∧ b ≤ 122)) ∧
          ((65 ≤ c ∧ c ≤ 90) ∨ (97 ≤ c ∧ c ≤ 122)) ∧
          ((65 ≤ d ∧ d ≤ 90) ∨ (97 ≤ d ∧ d ≤ 122)))) ∧
      (ChunkType.new a b c d = Except.ok ⟨a, b, c, d⟩ ↔
        (((65 ≤ a ∧ a ≤ 90) ∨ (97 ≤ a ∧ a ≤ 122)) ∧
          ((65 ≤ b ∧ b ≤ 90) ∨ (97 ≤ b ∧ b ≤ 122)) ∧
          ((65 ≤ c ∧ c ≤ 90) ∨ (97 ≤ c ∧ c ≤ 122)) ∧
          ((65 ≤ d ∧ d ≤ 90) ∨ (97 ≤ d ∧ d ≤ 122))))) ∧
    ChunkType.new 82 117 115 116 = Except.ok ⟨82, 117, 115, 116⟩ ∧
    ChunkType.is_valid ⟨82, 117, 115, 116⟩ = false ∧
    ChunkType.new 82 117 49 116 = Except.error PngError.invalidCharacter := by
  refine ⟨fun a b c d => ?_, by rfl, by decide, by rfl⟩
  simp only [ChunkType.new]
  split_ifs with h <;> simp_all [valid_chunk_character]

/-- C9: for every constructible chunk type, `is_critical`, `is_public`,
`is_reserved_bit_valid` read bytes 0, 1, 2 and hold exactly when that byte
is uppercase, `is_safe_to_copy` reads byte 3 and holds exactly when it is
lowercase, `is_valid` equals `is_reserved_bit_valid`; for `"RuSt"` this
gives critical, not public, reserved-bit-valid, safe-to-copy, valid. -/
theorem case_bit_mapping (a b c d : Nat)
    (ha : (65 ≤ a ∧ a ≤ 90) ∨ (97 ≤ a ∧ a ≤ 122))
    (hb : (65 ≤ b ∧ b ≤ 90) ∨ (97 ≤ b ∧ b ≤ 122))
    (hc : (65 ≤ c ∧ c ≤ 90) ∨ (97 ≤ c ∧ c ≤ 122))
    (hd : (65 ≤ d ∧ d ≤ 90) ∨ (97 ≤ d ∧ d ≤ 122)) :
    (ChunkType.is_critical ⟨a, b, c, d⟩ = true ↔ (65 ≤ a ∧ a ≤ 90)) ∧
    (ChunkType.is_public ⟨a, b, c, d⟩ = true ↔ (65 ≤ b ∧ b ≤ 90)) ∧
    (ChunkType.is_reserved_bit_valid ⟨a, b, c, d⟩ = true ↔
      (65 ≤ c ∧ c ≤ 90)) ∧
    (ChunkType.is_safe_to_copy ⟨a, b, c, d⟩ = true ↔ (97 ≤ d ∧ d ≤ 122)) ∧
    ChunkType.is_valid ⟨a, b, c, d⟩ =
      ChunkType.is_reserved_bit_valid ⟨a, b, c, d⟩ ∧
    ChunkType.is_critical rustType = true ∧
    ChunkType.is_public rustType = false ∧
    ChunkType.is_reserved_bit_valid rustType = true ∧
    ChunkType.is_safe_to_copy rustType = true ∧
    ChunkType.is_valid rustType = true := by
  refine ⟨?_, ?_, ?_, ?_, rfl, by decide, by decide, by decide, by decide,
    by decide⟩ <;>
    simp [ChunkType.is_critical, ChunkType.is_public,
      ChunkType.is_reserved_bit_valid, ChunkType.is_safe_to_copy,
      is_lowercase] <;> omega

/-- Witness for C9 at the concrete tag `"RuSt"` (bytes 82, 117, 83, 116). -/
theorem case_bit_mapping_witness :
    (((65 ≤ 82 ∧ 82 ≤ 90) ∨ (97 ≤ 82 ∧ 82 ≤ 122)) ∧
     ((65 ≤ 117 ∧ 117 ≤ 90) ∨ (97 ≤ 117 ∧ 117 ≤ 122)) ∧
     ((65 ≤ 83 ∧ 83 ≤ 90) ∨ (97 ≤ 83 ∧ 83 ≤ 122)) ∧
     ((65 ≤ 116 ∧ 116 ≤ 90) ∨ (97 ≤ 116 ∧ 116 ≤ 122))) ∧
    ((ChunkType.is_critical ⟨82, 117, 83, 116⟩ = true ↔
        (65 ≤ 82 ∧ 82 ≤ 90)) ∧
      (ChunkType.is_public ⟨82, 117, 83, 116⟩ = true ↔
        (65 ≤ 117 ∧ 117 ≤ 90)) ∧
      (ChunkType.is_reserved_bit_valid ⟨82, 117, 83, 116⟩ = true ↔
        (65 ≤ 83 ∧ 83 ≤ 90)) ∧
      (ChunkType.is_safe_to_copy ⟨82, 117, 83, 116⟩ = true ↔
        (97 ≤ 116 ∧ 116 ≤ 122)) ∧
      ChunkType.is_valid ⟨82, 117, 83, 116⟩ =
        ChunkType.is_reserved_bit_valid ⟨82, 117, 83, 116⟩ ∧
      ChunkType.is_critical rustType = true ∧
      ChunkType.is_public rustType = false ∧
      ChunkType.is_reserved_bit_valid rustType = true ∧
      ChunkType.is_safe_to_copy rustType = true ∧
      ChunkType.is_valid rustType = true) :=
  ⟨⟨by decide, by decide, by decide, by decide⟩,
    case_bit_mapping 82 117 83 116 (by decide) (by decide) (by decide)
      (by decide)⟩

/-! ## Symbolic evaluation of `parse_next` on a well-formed record -/

theorem bytes_of_mk (t : ChunkType) :
    ChunkType.bytes t = [t.b0, t.b1, t.b2, t.b3] := rfl

theorem new_of_valid (t : ChunkType)
    (ht : (valid_chunk_character t.b0 && valid_chunk_character t.b1 &&
        valid_chunk_character t.b2 && valid_chunk_character t.b3) = true) :
    ChunkType.new t.b0 t.b1 t.b2 t.b3 = Except.ok t := by
  simp [ChunkType.new, ht]

theorem parse_next_layout (t : ChunkType) (d : List Nat) (stored : Nat)
    (ht : (valid_chunk_character t.b0 && valid_chunk_character t.b1 &&
        valid_chunk_character t.b2 && valid_chunk_character t.b3) = true)
    (hd : d.length ≤ 4294967291) (hstored : stored < 4294967296) :
    Chunk.parse_next
        (u32_to_be_bytes d.length ++ t.bytes ++ d ++ u32_to_be_bytes stored) =
      if Chunk.crc (Chunk.new t d) = stored then
        ParseResult.ok (Chunk.new t d, [])
      else ParseResult.err PngError.crcMismatch := by
  have hlen : d.length < 4294967296 := by omega
  have hA : (u32_to_be_bytes d.length).length = 4 := rfl
  have hS : (u32_to_be_bytes stored).length = 4 := rfl
  have hB : t.bytes.length = 4 := rfl
  have hv : (u32_to_be_bytes d.length ++ t.bytes ++ d ++
      u32_to_be_bytes stored).length = d.length + 12 := by
    simp only [List.length_append, hA, hS, hB]
    omega
  have htake : (u32_to_be_bytes d.length ++ t.bytes ++ d ++
      u32_to_be_bytes stored).take 4 = u32_to_be_bytes d.length := by
    rw [List.append_assoc, List.append_assoc]
    exact List.take_left' hA
  have hdrop : (u32_to_be_bytes d.length ++ t.bytes ++ d ++
      u32_to_be_bytes stored).drop 8 = d ++ u32_to_be_bytes stored := by
    rw [List.append_assoc]
    exact List.drop_left' (by simp only [List.length_append, hA, hB])
  have hg : ∀ k : Nat, k < 4 →
      (u32_to_be_bytes d.length ++ t.bytes ++ d ++
        u32_to_be_bytes stored).getD (4 + k) 0 = t.bytes.getD k 0 := by
    intro k hk
    rw [List.append_assoc, List.append_assoc,
      List.getD_append_right _ _ _ _
        (by omega : (u32_to_be_bytes d.length).length ≤ 4 + k),
      hA, List.getD_append _ _ _ _ (by omega : 4 + k - 4 < t.bytes.length),
      Nat.add_sub_cancel_left]
  have hg4 : (u32_to_be_bytes d.length ++ t.bytes ++ d ++
      u32_to_be_bytes stored).getD 4 0 = t.b0 := by
    simpa [bytes_of_mk] using hg 0 (by omega)
  have hg5 : (u32_to_be_bytes d.length ++ t.bytes ++ d ++
      u32_to_be_bytes stored).getD 5 0 = t.b1 := by
    simpa [bytes_of_mk] using hg 1 (by omega)
  have hg6 : (u32_to_be_bytes d.length ++ t.bytes ++ d ++
      u32_to_be_bytes stored).getD 6 0 = t.b2 := by
    simpa [bytes_of_mk] using hg 2 (by omega)
  have hg7 : (u32_to_be_bytes d.length ++ t.bytes ++ d ++
      u32_to_be_bytes stored).getD 7 0 = t.b3 := by
    simpa [bytes_of_mk] using hg 3 (by omega)
  have hSt : (u32_to_be_bytes stored).take 4 = u32_to_be_bytes stored := rfl
  have hSd : (u32_to_be_bytes stored).drop 4 = ([] : List Nat) := rfl
  simp only [Chunk.parse_next, hv, htake, hdrop, hg4, hg5, hg6, hg7,
    u32_from_to d.length hlen, new_of_valid t ht, List.length_append, hS]
  rw [if_neg (show ¬(d.length + 12 < 12) by omega)]
  rw [if_neg (show ¬(4294967291 < d.length) by omega)]
  rw [if_neg (show ¬(d.length + 4 < d.length + 4) by omega)]
  rw [if_neg (show ¬(d.length + 4 < d.length + 4) by omega)]
  rw [List.take_left, List.drop_left, hSt, u32_from_to stored hstored,
    List.drop_append 4, hSd]
  by_cases hcrc : Chunk.crc (Chunk.new t d) = stored
  · rw [if_neg (show ¬(Chunk.crc (Chunk.new t d) ≠ stored) from
      fun h => h hcrc), if_pos hcrc]
  · rw [if_pos hcrc, if_neg hcrc]

theorem tryFrom_err (v : List Nat) (e : PngError)
    (hp : Chunk.parse_next v = ParseResult.err e) :
    Chunk.tryFrom v = ParseResult.err e := by
  unfold Chunk.tryFrom
  rw [hp]

theorem parse_next_too_large (t : ChunkType) (d : List Nat) (stored : Nat)
    (ht : (valid_chunk_character t.b0 && valid_chunk_character t.b1 &&
        valid_chunk_character t.b2 && valid_chunk_character t.b3) = true)
    (hd1 : 4294967291 < d.length) (hd2 : d.length < 4294967296) :
    Chunk.parse_next
        (u32_to_be_bytes d.length ++ t.bytes ++ d ++ u32_to_be_bytes stored) =
      ParseResult.err PngError.tooLargeLength := by
  have hA : (u32_to_be_bytes d.length).length = 4 := rfl
  have hS : (u32_to_be_bytes stored).length = 4 := rfl
  have hB : t.bytes.length = 4 := rfl
  have hv : (u32_to_be_bytes d.length ++ t.bytes ++ d ++
      u32_to_be_bytes stored).length = d.length + 12 := by
    simp only [List.length_append, hA, hS, hB]
    omega
  have htake : (u32_to_be_bytes d.length ++ t.bytes ++ d ++
      u32_to_be_bytes stored).take 4 = u32_to_be_bytes d.length := by
    rw [List.append_assoc, List.append_assoc]
    exact List.take_left' hA
  have hg : ∀ k : Nat, k < 4 →
      (u32_to_be_bytes d.length ++ t.bytes ++ d ++
        u32_to_be_bytes stored).getD (4 + k) 0 = t.bytes.getD k 0 := by
    intro k hk
    rw [List.append_assoc, List.append_assoc,
      List.getD_append_right _ _ _ _
        (by omega : (u32_to_be_bytes d.length).length ≤ 4 + k),
      hA, List.getD_append _ _ _ _ (by omega : 4 + k - 4 < t.bytes.length),
      Nat.add_sub_cancel_left]
  have hg4 : (u32_to_be_bytes d.length ++ t.bytes ++ d ++
      u32_to_be_bytes stored).getD 4 0 = t.b0 := by
    simpa [bytes_of_mk] using hg 0 (by omega)
  have hg5 : (u32_to_be_bytes d.length ++ t.bytes ++ d ++
      u32_to_be_bytes stored).getD 5 0 = t.b1 := by
    simpa [bytes_of_mk] using hg 1 (by omega)
  have hg6 : (u32_to_be_bytes d.length ++ t.bytes ++ d ++
      u32_to_be_bytes stored).getD 6 0 = t.b2 := by
    simpa [bytes_of_mk] using hg 2 (by omega)
  have hg7 : (u32_to_be_bytes d.length ++ t.bytes ++ d ++
      u32_to_be_bytes stored).getD 7 0 = t.b3 := by
    simpa [bytes_of_mk] using hg 3 (by omega)
  simp only [Chunk.parse_next, hv, htake, hg4, hg5, hg6, hg7,
    u32_from_to d.length hd2, new_of_valid t ht]
  rw [if_neg (show ¬(d.length + 12 < 12) by omega)]
  rw [if_pos hd1]

/-- C1 (amended): for every chunk type whose four bytes are ASCII letters
and every payload of length at most `2^32 - 5` (so that the parser's
`length > u32::MAX - 4` guard passes), parsing the serialized bytes in
whole-buffer mode succeeds and returns an equal chunk. -/
theorem chunk_round_trip (t : ChunkType)
    (ht : (valid_chunk_character t.b0 && valid_chunk_character t.b1 &&
        valid_chunk_character t.b2 && valid_chunk_character t.b3) = true)
    (d : List Nat) (hd : d.length ≤ 4294967291) :
    Chunk.tryFrom (Chunk.as_bytes (Chunk.new t d)) =
      ParseResult.ok (Chunk.new t d) := by
  have h := parse_next_layout t d (Chunk.crc (Chunk.new t d)) ht hd (crc_lt _)
  rw [if_pos rfl] at h
  have hb : Chunk.as_bytes (Chunk.new t d) =
      u32_to_be_bytes d.length ++ t.bytes ++ d ++
        u32_to_be_bytes (Chunk.crc (Chunk.new t d)) := rfl
  unfold Chunk.tryFrom
  rw [hb, h]
  rfl

/-- Witness for C1 (amended) at the empty-payload `"RuSt"` chunk. -/
theorem chunk_round_trip_witness :
    ((valid_chunk_character rustType.b0 && valid_chunk_character rustType.b1 &&
        valid_chunk_character rustType.b2 &&
        valid_chunk_character rustType.b3) = true) ∧
    ([] : List Nat).length ≤ 4294967291 ∧
    Chunk.tryFrom (Chunk.as_bytes (Chunk.new rustType [])) =
      ParseResult.ok (Chunk.new rustType []) :=
  ⟨by decide, by decide, chunk_round_trip rustType (by decide) [] (by decide)⟩

/-- C1 counterexample: a payload of 4294967292 bytes fits the u32 length
field (its length is below `2^32`), yet the round trip fails: the parser
rejects any declared length above `u32::MAX - 4 = 4294967291` with the
"Too large length" error before reaching the CRC check. -/
theorem round_trip_fails_near_u32_max :
    Chunk.tryFrom
        (Chunk.as_bytes (Chunk.new rustType (List.replicate 4294967292 0))) ≠
      ParseResult.ok (Chunk.new rustType (List.replicate 4294967292 0)) := by
  have hlen : (List.replicate 4294967292 (0 : Nat)).length = 4294967292 :=
    List.length_replicate 4294967292 0
  have h := parse_next_too_large rustType (List.replicate 4294967292 0)
    (Chunk.crc (Chunk.new rustType (List.replicate 4294967292 0)))
    (by decide) (by rw [hlen]; omega) (by rw [hlen]; omega)
  have hb : Chunk.as_bytes (Chunk.new rustType (List.replicate 4294967292 0)) =
      u32_to_be_bytes (List.replicate 4294967292 (0 : Nat)).length ++
        rustType.bytes ++ List.replicate 4294967292 0 ++
        u32_to_be_bytes
          (Chunk.crc (Chunk.new rustType (List.replicate 4294967292 0))) :=
    rfl
  have h2 := tryFrom_err _ _ (hb ▸ h)
  rw [h2]
  intro hcontra
  exact ParseResult.noConfusion hcontra

/-- C7: every buffer of fewer than 12 bytes is rejected by both `parse_next`
and whole-buffer parse with `TooShort`; and for any all-letter type, the
12-byte buffer made of a zero length field, the type bytes, and the correct
CRC for the empty payload parses to a chunk with empty data. -/
theorem minimum_size_boundary :
    (∀ v : List Nat, v.length < 12 →
      Chunk.parse_next v = ParseResult.err PngError.tooShort ∧
      Chunk.tryFrom v = ParseResult.err PngError.tooShort) ∧
    (∀ t : ChunkType,
      (valid_chunk_character t.b0 && valid_chunk_character t.b1 &&
        valid_chunk_character t.b2 && valid_chunk_character t.b3) = true →
      (u32_to_be_bytes 0 ++ t.bytes ++
        u32_to_be_bytes (Chunk.crc (Chunk.new t []))).length = 12 ∧
      Chunk.tryFrom (u32_to_be_bytes 0 ++ t.bytes ++
          u32_to_be_bytes (Chunk.crc (Chunk.new t []))) =
        ParseResult.ok (Chunk.new t [])) := by
  constructor
  · intro v hv
    have hp : Chunk.parse_next v = ParseResult.err PngError.tooShort := by
      unfold Chunk.parse_next
      rw [if_pos hv]
    refine ⟨hp, ?_⟩
    unfold Chunk.tryFrom
    rw [hp]
  · intro t ht
    have h := parse_next_layout t [] (Chunk.crc (Chunk.new t [])) ht
      (by simp) (crc_lt _)
    rw [if_pos rfl] at h
    simp only [List.length_nil, List.append_nil] at h
    refine ⟨rfl, ?_⟩
    unfold Chunk.tryFrom
    rw [h]
    rfl

/-- Witness for C7 at the empty buffer and the `"RuSt"` type. -/
theorem minimum_size_boundary_witness :
    ([] : List Nat).length < 12 ∧
    Chunk.parse_next ([] : List Nat) = ParseResult.err PngError.tooShort ∧
    ((valid_chunk_character rustType.b0 && valid_chunk_character rustType.b1 &&
        valid_chunk_character rustType.b2 &&
        valid_chunk_character rustType.b3) = true) ∧
    Chunk.tryFrom (u32_to_be_bytes 0 ++ rustType.bytes ++
        u32_to_be_bytes (Chunk.crc (Chunk.new rustType []))) =
      ParseResult.ok (Chunk.new rustType []) :=
  ⟨by decide, (minimum_size_boundary.1 [] (by decide)).1, by decide,
    (minimum_size_boundary.2 rustType (by decide)).2⟩

/-! ## GF(2) structure of the CRC: xor arithmetic helpers -/

theorem two_pow_32_eq : (2 : Nat) ^ 32 = 4294967296 := rfl

theorem two_pow_8_eq : (2 : Nat) ^ 8 = 256 := rfl

theorem xor_lt_256 {a b : Nat} (ha : a < 256) (hb : b < 256) :
    a ^^^ b < 256 := by
  rw [← two_pow_8_eq] at ha hb ⊢
  exact Nat.xor_lt_two_pow ha hb

theorem xor_div_two_pow (a b k : Nat) :
    (a ^^^ b) / 2 ^ k = (a / 2 ^ k) ^^^ (b / 2 ^ k) := by
  rw [← Nat.shiftRight_eq_div_pow, ← Nat.shiftRight_eq_div_pow,
    ← Nat.shiftRight_eq_div_pow]
  apply Nat.eq_of_testBit_eq
  intro i
  simp [Nat.testBit_shiftRight, Nat.testBit_xor]

theorem xor_mod_two_pow (a b k : Nat) :
    (a ^^^ b) % 2 ^ k = (a % 2 ^ k) ^^^ (b % 2 ^ k) := by
  apply Nat.eq_of_testBit_eq
  intro i
  by_cases h : i < k <;>
    simp [Nat.testBit_mod_two_pow, Nat.testBit_xor, h]

theorem xor_xor_cancel (p x y : Nat) :
    (p ^^^ x) ^^^ (p ^^^ y) = x ^^^ y := by
  apply Nat.eq_of_testBit_eq
  intro i
  simp only [Nat.testBit_xor]
  cases p.testBit i <;> cases x.testBit i <;> cases y.testBit i <;> rfl

theorem xor_left_comm_nat (p x y : Nat) :
    p ^^^ (x ^^^ y) = x ^^^ (p ^^^ y) := by
  apply Nat.eq_of_testBit_eq
  intro i
  simp only [Nat.testBit_xor]
  cases p.testBit i <;> cases x.testBit i <;> cases y.testBit i <;> rfl

/-! ## Linearity of the CRC table over GF(2) -/

theorem crcTableStep_xor (a b : Nat) :
    crcTableStep (a ^^^ b) = crcTableStep a ^^^ crcTableStep b := by
  have hm : (a ^^^ b) % 2 = a % 2 ^^^ b % 2 := by
    have h := xor_mod_two_pow a b 1
    simpa using h
  have hd : (a ^^^ b) / 2 = a / 2 ^^^ b / 2 := by
    have h := xor_div_two_pow a b 1
    simpa using h
  unfold crcTableStep
  rcases Nat.mod_two_eq_zero_or_one a with ha | ha <;>
    rcases Nat.mod_two_eq_zero_or_one b with hb | hb
  · rw [if_neg (by omega : ¬a % 2 = 1), if_neg (by omega : ¬b % 2 = 1),
      if_neg (by rw [hm, ha, hb]; simp), hd]
  · rw [if_neg (by omega : ¬a % 2 = 1), if_pos hb,
      if_pos (by rw [hm, ha, hb]; simp), hd, xor_left_comm_nat]
  · rw [if_pos ha, if_neg (by omega : ¬b % 2 = 1),
      if_pos (by rw [hm, ha, hb]; simp), hd, ← Nat.xor_assoc]
  · rw [if_pos ha, if_pos hb,
      if_neg (by rw [hm, ha, hb]; simp), hd, xor_xor_cancel]

theorem crcTableIter_xor : ∀ (k : Nat) (a b : Nat),
    crcTableIter k (a ^^^ b) = crcTableIter k a ^^^ crcTableIter k b
  | 0, _, _ => rfl
  | k + 1, a, b => by
    show crcTableIter k (crcTableStep (a ^^^ b)) = _
    rw [crcTableStep_xor]
    exact crcTableIter_xor k (crcTableStep a) (crcTableStep b)

theorem crc_table_xor {a b : Nat} (ha : a < 256) (hb : b < 256) :
    crc_table (a ^^^ b) = crc_table a ^^^ crc_table b := by
  have hab : a ^^^ b < 256 := xor_lt_256 ha hb
  unfold crc_table
  rw [Nat.mod_eq_of_lt hab, Nat.mod_eq_of_lt ha, Nat.mod_eq_of_lt hb]
  exact crcTableIter_xor 8 a b

/-- The top byte of a CRC table entry is nonzero for every nonzero index:
a concrete 256-case check. -/
theorem crc_table_hi_nonzero : ∀ x : Nat, x < 256 → x ≠ 0 →
    crc_table x / 16777216 ≠ 0 := by decide

theorem crc_table_hi_inj {x1 x2 : Nat} (h1 : x1 < 256) (h2 : x2 < 256)
    (h : crc_table x1 / 16777216 = crc_table x2 / 16777216) : x1 = x2 := by
  by_contra hne
  have hy0 : x1 ^^^ x2 ≠ 0 := fun h0 => hne (Nat.xor_eq_zero.mp h0)
  have hylt : x1 ^^^ x2 < 256 := xor_lt_256 h1 h2
  have hzero : crc_table (x1 ^^^ x2) / 16777216 = 0 := by
    rw [crc_table_xor h1 h2,
      show (16777216 : Nat) = 2 ^ 24 from rfl, xor_div_two_pow,
      show (2 : Nat) ^ 24 = 16777216 from rfl, h, Nat.xor_self]
  exact crc_table_hi_nonzero _ hylt hy0 hzero

/-! ## Injectivity of the CRC state transition -/

theorem two_pow_lt_256 {j : Nat} (hj : j < 8) : 2 ^ j < 256 := by
  have h := Nat.pow_le_pow_right (by norm_num : 1 ≤ 2) (by omega : j ≤ 7)
  have h7 : (2 : Nat) ^ 7 = 128 := rfl
  omega

theorem get_inj {a b : Nat} (h : Crc.get a = Crc.get b) : a = b := by
  unfold Crc.get at h
  exact Nat.xor_left_inj.mp h

theorem update_byte_state_inj {s1 s2 : Nat} (b : Nat)
    (h1 : s1 < 4294967296) (h2 : s2 < 4294967296)
    (h : Crc.update_byte s1 b = Crc.update_byte s2 b) : s1 = s2 := by
  unfold Crc.update_byte at h
  have hx1lt : (s1 ^^^ b) % 256 < 256 := Nat.mod_lt _ (by norm_num)
  have hx2lt : (s2 ^^^ b) % 256 < 256 := Nat.mod_lt _ (by norm_num)
  have hs1z : s1 / 256 / 2 ^ 24 = 0 := by
    rw [Nat.div_div_eq_div_mul]
    exact Nat.div_eq_of_lt
      (by rw [show (256 : Nat) * 2 ^ 24 = 4294967296 from rfl]; exact h1)
  have hs2z : s2 / 256 / 2 ^ 24 = 0 := by
    rw [Nat.div_div_eq_div_mul]
    exact Nat.div_eq_of_lt
      (by rw [show (256 : Nat) * 2 ^ 24 = 4294967296 from rfl]; exact h2)
  have hdiv : crc_table ((s1 ^^^ b) % 256) / 2 ^ 24 =
      crc_table ((s2 ^^^ b) % 256) / 2 ^ 24 := by
    have e : (crc_table ((s1 ^^^ b) % 256) ^^^ s1 / 256) / 2 ^ 24 =
        (crc_table ((s2 ^^^ b) % 256) ^^^ s2 / 256) / 2 ^ 24 := by rw [h]
    rw [xor_div_two_pow, xor_div_two_pow, hs1z, hs2z, Nat.xor_zero,
      Nat.xor_zero] at e
    exact e
  have hx : (s1 ^^^ b) % 256 = (s2 ^^^ b) % 256 :=
    crc_table_hi_inj hx1lt hx2lt
      (by rw [show (16777216 : Nat) = 2 ^ 24 from rfl]; exact hdiv)
  rw [hx] at h
  have hdiv256 : s1 / 256 = s2 / 256 := Nat.xor_right_inj.mp h
  have hmod : s1 % 256 = s2 % 256 := by
    rw [show (256 : Nat) = 2 ^ 8 from rfl, xor_mod_two_pow, xor_mod_two_pow]
      at hx
    exact Nat.xor_left_inj.mp hx
  omega

theorem update_byte_byte_ne (s : Nat) {b1 b2 : Nat}
    (hb : b1 % 256 ≠ b2 % 256) :
    Crc.update_byte s b1 ≠ Crc.update_byte s b2 := by
  intro h
  unfold Crc.update_byte at h
  have heq : crc_table ((s ^^^ b1) % 256) = crc_table ((s ^^^ b2) % 256) :=
    Nat.xor_left_inj.mp h
  have hx : (s ^^^ b1) % 256 = (s ^^^ b2) % 256 :=
    crc_table_hi_inj (Nat.mod_lt _ (by norm_num)) (Nat.mod_lt _ (by norm_num))
      (by rw [heq])
  rw [show (256 : Nat) = 2 ^ 8 from rfl, xor_mod_two_pow, xor_mod_two_pow]
    at hx
  exact hb (by
    have := Nat.xor_right_inj.mp hx
    simpa [show (2 : Nat) ^ 8 = 256 from rfl] using this)

theorem update_ne_of_ne : ∀ (l : List Nat) {s1 s2 : Nat},
    s1 < 4294967296 → s2 < 4294967296 → s1 ≠ s2 →
    Crc.update s1 l ≠ Crc.update s2 l
  | [], _, _, _, _, hne => hne
  | b :: l, s1, s2, h1, h2, hne => by
    have hstep : Crc.update_byte s1 b ≠ Crc.update_byte s2 b :=
      fun h => hne (update_byte_state_inj b h1 h2 h)
    have hrec := update_ne_of_ne l (update_byte_lt s1 b h1)
      (update_byte_lt s2 b h2) hstep
    simpa [Crc.update] using hrec

theorem update_flip_ne (s0 : Nat) (hs0 : s0 < 4294967296)
    (p sfx : List Nat) (b j : Nat) (hj : j < 8) :
    Crc.update s0 (p ++ (b ^^^ 2 ^ j) :: sfx) ≠
      Crc.update s0 (p ++ b :: sfx) := by
  have hfold : ∀ x : Nat, Crc.update s0 (p ++ x :: sfx) =
      Crc.update (Crc.update_byte (Crc.update s0 p) x) sfx := by
    intro x
    simp [Crc.update, List.foldl_append]
  rw [hfold, hfold]
  have hsm : Crc.update s0 p < 4294967296 := update_lt p s0 hs0
  have h2j : (2 : Nat) ^ j % 2 ^ 8 = 2 ^ j :=
    Nat.mod_eq_of_lt (by have := two_pow_lt_256 hj; omega)
  have hbne : (b ^^^ 2 ^ j) % 256 ≠ b % 256 := by
    rw [show (256 : Nat) = 2 ^ 8 from rfl, xor_mod_two_pow, h2j]
    intro hcontra
    have h0 : (2 : Nat) ^ j = 0 := by
      have e : b % 2 ^ 8 ^^^ 2 ^ j = b % 2 ^ 8 ^^^ 0 := by
        rw [Nat.xor_zero]
        exact hcontra
      exact Nat.xor_right_inj.mp e
    have hpos : 0 < (2 : Nat) ^ j := Nat.pow_pos (by norm_num)
    omega
  have hstep := update_byte_byte_ne (Crc.update s0 p) hbne
  exact update_ne_of_ne sfx (update_byte_lt _ _ hsm) (update_byte_lt _ _ hsm)
    hstep

/-! ## A single-bit flip in the payload changes the CRC -/

theorem crc_expand (t : ChunkType) (dd : List Nat) :
    Chunk.crc (Chunk.new t dd) =
      Crc.get (Crc.update (Crc.update Crc.new t.bytes) dd) := rfl

theorem crc_payload_flip_ne (t : ChunkType) (d : List Nat) (k j : Nat)
    (hk : k < d.length) (hj : j < 8) :
    Chunk.crc (Chunk.new t (d.set k (d.getD k 0 ^^^ 2 ^ j))) ≠
      Chunk.crc (Chunk.new t d) := by
  intro h
  rw [crc_expand, crc_expand] at h
  have hupd := get_inj h
  have e1 : d.set k (d.getD k 0 ^^^ 2 ^ j) =
      d.take k ++ (d.getD k 0 ^^^ 2 ^ j) :: d.drop (k + 1) := by
    rw [List.set_eq_take_append_cons_drop, if_pos hk]
  have e2 : d = d.take k ++ d.getD k 0 :: d.drop (k + 1) := by
    rw [List.getD_eq_getElem _ _ hk, ← List.drop_eq_getElem_cons hk,
      List.take_append_drop]
  have hs0 : Crc.update Crc.new t.bytes < 4294967296 :=
    update_lt _ _ (by norm_num [Crc.new])
  have hne := update_flip_ne (Crc.update Crc.new t.bytes) hs0
    (d.take k) (d.drop (k + 1)) (d.getD k 0) j hj
  apply hne
  rw [← e1, ← e2]
  exact hupd

/-! ## Tamper detection: parse fails with a CRC mismatch -/

theorem xor_two_pow_ne (x j : Nat) : x ^^^ 2 ^ j ≠ x := by
  intro h
  have h0 : (2 : Nat) ^ j = 0 := by
    have e : x ^^^ 2 ^ j = x ^^^ 0 := by
      rw [Nat.xor_zero]
      exact h
    exact Nat.xor_right_inj.mp e
  have hpos : 0 < (2 : Nat) ^ j := Nat.pow_pos (by norm_num)
  omega

theorem parse_wrong_crc (t : ChunkType)
    (ht : (valid_chunk_character t.b0 && valid_chunk_character t.b1 &&
        valid_chunk_character t.b2 && valid_chunk_character t.b3) = true)
    (d : List Nat) (hd : d.length ≤ 4294967291) (stored : Nat)
    (hs : stored < 4294967296)
    (hne : Chunk.crc (Chunk.new t d) ≠ stored) :
    Chunk.tryFrom
        (u32_to_be_bytes d.length ++ t.bytes ++ d ++ u32_to_be_bytes stored) =
      ParseResult.err PngError.crcMismatch := by
  have h := parse_next_layout t d stored ht hd hs
  rw [if_neg hne] at h
  exact tryFrom_err _ _ h

theorem tamper_payload (t : ChunkType)
    (ht : (valid_chunk_character t.b0 && valid_chunk_character t.b1 &&
        valid_chunk_character t.b2 && valid_chunk_character t.b3) = true)
    (d : List Nat) (hd : d.length ≤ 4294967291) (k j : Nat)
    (hk : k < d.length) (hj : j < 8) :
    Chunk.tryFrom
        (u32_to_be_bytes d.length ++ t.bytes ++
          d.set k (d.getD k 0 ^^^ 2 ^ j) ++
          u32_to_be_bytes (Chunk.crc (Chunk.new t d))) =
      ParseResult.err PngError.crcMismatch := by
  have hlen : (d.set k (d.getD k 0 ^^^ 2 ^ j)).length = d.length :=
    List.length_set d k _
  have hne : Chunk.crc (Chunk.new t (d.set k (d.getD k 0 ^^^ 2 ^ j))) ≠
      Chunk.crc (Chunk.new t d) := crc_payload_flip_ne t d k j hk hj
  have h := parse_wrong_crc t ht (d.set k (d.getD k 0 ^^^ 2 ^ j))
    (by rw [hlen]; exact hd) (Chunk.crc (Chunk.new t d)) (crc_lt _) hne
  rw [hlen] at h
  exact h

theorem u32_flip (v k j : Nat) (hv : v < 4294967296) (hk : k < 4)
    (hj : j < 8) :
    u32_from_be_bytes ((u32_to_be_bytes v).set k
        ((u32_to_be_bytes v).getD k 0 ^^^ 2 ^ j)) < 4294967296 ∧
    u32_to_be_bytes (u32_from_be_bytes ((u32_to_be_bytes v).set k
        ((u32_to_be_bytes v).getD k 0 ^^^ 2 ^ j))) =
      (u32_to_be_bytes v).set k ((u32_to_be_bytes v).getD k 0 ^^^ 2 ^ j) ∧
    u32_from_be_bytes ((u32_to_be_bytes v).set k
        ((u32_to_be_bytes v).getD k 0 ^^^ 2 ^ j)) ≠ v := by
  have h2j := two_pow_lt_256 hj
  have hb0 : v / 16777216 % 256 < 256 := Nat.mod_lt _ (by norm_num)
  have hb1 : v / 65536 % 256 < 256 := Nat.mod_lt _ (by norm_num)
  have hb2 : v / 256 % 256 < 256 := Nat.mod_lt _ (by norm_num)
  have hb3 : v % 256 < 256 := Nat.mod_lt _ (by norm_num)
  have hf0 : v / 16777216 % 256 ^^^ 2 ^ j < 256 := xor_lt_256 hb0 (by omega)
  have hf1 : v / 65536 % 256 ^^^ 2 ^ j < 256 := xor_lt_256 hb1 (by omega)
  have hf2 : v / 256 % 256 ^^^ 2 ^ j < 256 := xor_lt_256 hb2 (by omega)
  have hf3 : v % 256 ^^^ 2 ^ j < 256 := xor_lt_256 hb3 (by omega)
  have hx0 : v / 16777216 % 256 ^^^ 2 ^ j ≠ v / 16777216 % 256 :=
    xor_two_pow_ne _ j
  have hx1 : v / 65536 % 256 ^^^ 2 ^ j ≠ v / 65536 % 256 := xor_two_pow_ne _ j
  have hx2 : v / 256 % 256 ^^^ 2 ^ j ≠ v / 256 % 256 := xor_two_pow_ne _ j
  have hx3 : v % 256 ^^^ 2 ^ j ≠ v % 256 := xor_two_pow_ne _ j
  interval_cases k
  · simp only [u32_to_be_bytes, List.set_cons_zero, List.getD_cons_zero,
      u32_from_be_bytes]
    exact ⟨by omega, u32_to_from _ _ _ _ hf0 hb1 hb2 hb3, by omega⟩
  · simp only [u32_to_be_bytes, List.set_cons_zero, List.set_cons_succ,
      List.getD_cons_zero, List.getD_cons_succ, u32_from_be_bytes]
    exact ⟨by omega, u32_to_from _ _ _ _ hb0 hf1 hb2 hb3, by omega⟩
  · simp only [u32_to_be_bytes, List.set_cons_zero, List.set_cons_succ,
      List.getD_cons_zero, List.getD_cons_succ, u32_from_be_bytes]
    exact ⟨by omega, u32_to_from _ _ _ _ hb0 hb1 hf2 hb3, by omega⟩
  · simp only [u32_to_be_bytes, List.set_cons_zero, List.set_cons_succ,
      List.getD_cons_zero, List.getD_cons_succ, u32_from_be_bytes]
    exact ⟨by omega, u32_to_from _ _ _ _ hb0 hb1 hb2 hf3, by omega⟩

theorem tamper_crcfield (t : ChunkType)
    (ht : (valid_chunk_character t.b0 && valid_chunk_character t.b1 &&
        valid_chunk_character t.b2 && valid_chunk_character t.b3) = true)
    (d : List Nat) (hd : d.length ≤ 4294967291) (k j : Nat)
    (hk : k < 4) (hj : j < 8) :
    Chunk.tryFrom
        (u32_to_be_bytes d.length ++ t.bytes ++ d ++
          (u32_to_be_bytes (Chunk.crc (Chunk.new t d))).set k
            ((u32_to_be_bytes (Chunk.crc (Chunk.new t d))).getD k 0 ^^^
              2 ^ j)) =
      ParseResult.err PngError.crcMismatch := by
  obtain ⟨hlt, heq, hne⟩ :=
    u32_flip (Chunk.crc (Chunk.new t d)) k j (crc_lt _) hk hj
  have h := parse_wrong_crc t ht d hd
    (u32_from_be_bytes ((u32_to_be_bytes (Chunk.crc (Chunk.new t d))).set k
      ((u32_to_be_bytes (Chunk.crc (Chunk.new t d))).getD k 0 ^^^ 2 ^ j)))
    hlt (fun hcontra => hne (hcontra.symm))
  rw [heq] at h
  exact h

/-- C5: tamper detection.  For every chunk with an all-letter type and a
payload short enough to parse (at most `2^32 - 5` bytes), flipping any
single bit `j` of any byte `i` of the serialized chunk lying in the payload
region (`8 ≤ i < 8 + len`) or in the CRC field (`8 + len ≤ i < 12 + len`)
makes the whole-buffer parse fail with `CrcMismatch`. -/
theorem tamper_detection (t : ChunkType)
    (ht : (valid_chunk_character t.b0 && valid_chunk_character t.b1 &&
        valid_chunk_character t.b2 && valid_chunk_character t.b3) = true)
    (d : List Nat) (hd : d.length ≤ 4294967291)
    (i j : Nat) (hj : j < 8) (hi1 : 8 ≤ i) (hi2 : i < 12 + d.length) :
    Chunk.tryFrom
        ((Chunk.as_bytes (Chunk.new t d)).set i
          ((Chunk.as_bytes (Chunk.new t d)).getD i 0 ^^^ 2 ^ j)) =
      ParseResult.err PngError.crcMismatch := by
  have hbuf : Chunk.as_bytes (Chunk.new t d) =
      ((u32_to_be_bytes d.length ++ t.bytes) ++ d) ++
        u32_to_be_bytes (Chunk.crc (Chunk.new t d)) := rfl
  have hAB : (u32_to_be_bytes d.length ++ t.bytes).length = 8 := by
    simp [u32_to_be_bytes, ChunkType.bytes]
  have hABd : ((u32_to_be_bytes d.length ++ t.bytes) ++ d).length =
      8 + d.length := by
    rw [List.length_append, hAB]
  rw [hbuf]
  by_cases hcase : i < 8 + d.length
  · have hgd : ((((u32_to_be_bytes d.length ++ t.bytes) ++ d) ++
        u32_to_be_bytes (Chunk.crc (Chunk.new t d))).getD i 0) =
        d.getD (i - 8) 0 := by
      rw [List.getD_append _ _ _ _ (by rw [hABd]; omega),
        List.getD_append_right _ _ _ _ (by rw [hAB]; omega), hAB]
    rw [hgd]
    have hsetL : ((((u32_to_be_bytes d.length ++ t.bytes) ++ d) ++
        u32_to_be_bytes (Chunk.crc (Chunk.new t d))).set i
          (d.getD (i - 8) 0 ^^^ 2 ^ j)) =
        (((u32_to_be_bytes d.length ++ t.bytes) ++ d).set i
          (d.getD (i - 8) 0 ^^^ 2 ^ j)) ++
          u32_to_be_bytes (Chunk.crc (Chunk.new t d)) :=
      List.set_append_left _ _ (by rw [hABd]; omega)
    have hsetR : (((u32_to_be_bytes d.length ++ t.bytes) ++ d).set i
        (d.getD (i - 8) 0 ^^^ 2 ^ j)) =
        (u32_to_be_bytes d.length ++ t.bytes) ++
          d.set (i - (u32_to_be_bytes d.length ++ t.bytes).length)
            (d.getD (i - 8) 0 ^^^ 2 ^ j) :=
      List.set_append_right _ _ (by rw [hAB]; omega)
    rw [hsetL, hsetR, hAB]
    exact tamper_payload t ht d hd (i - 8) j (by omega) hj
  · have hgd : ((((u32_to_be_bytes d.length ++ t.bytes) ++ d) ++
        u32_to_be_bytes (Chunk.crc (Chunk.new t d))).getD i 0) =
        (u32_to_be_bytes (Chunk.crc (Chunk.new t d))).getD
          (i - (8 + d.length)) 0 := by
      rw [List.getD_append_right _ _ _ _ (by rw [hABd]; omega), hABd]
    rw [hgd]
    have hsetR : ((((u32_to_be_bytes d.length ++ t.bytes) ++ d) ++
        u32_to_be_bytes (Chunk.crc (Chunk.new t d))).set i
          ((u32_to_be_bytes (Chunk.crc (Chunk.new t d))).getD
            (i - (8 + d.length)) 0 ^^^ 2 ^ j)) =
        ((u32_to_be_bytes d.length ++ t.bytes) ++ d) ++
          (u32_to_be_bytes (Chunk.crc (Chunk.new t d))).set
            (i - ((u32_to_be_bytes d.length ++ t.bytes) ++ d).length)
            ((u32_to_be_bytes (Chunk.crc (Chunk.new t d))).getD
              (i - (8 + d.length)) 0 ^^^ 2 ^ j) :=
      List.set_append_right _ _ (by rw [hABd]; omega)
    rw [hsetR, hABd]
    exact tamper_crcfield t ht d hd (i - (8 + d.length)) j (by omega) hj

/-- Witness for C5: flipping bit 0 of the first CRC byte (index 8) of the
serialized empty-payload `"RuSt"` chunk. -/
theorem tamper_detection_witness :
    ((valid_chunk_character rustType.b0 && valid_chunk_character rustType.b1 &&
        valid_chunk_character rustType.b2 &&
        valid_chunk_character rustType.b3) = true) ∧
    ([] : List Nat).length ≤ 4294967291 ∧ 0 < 8 ∧ 8 ≤ 8 ∧
    8 < 12 + ([] : List Nat).length ∧
    Chunk.tryFrom
        ((Chunk.as_bytes (Chunk.new rustType [])).set 8
          ((Chunk.as_bytes (Chunk.new rustType [])).getD 8 0 ^^^ 2 ^ 0)) =
      ParseResult.err PngError.crcMismatch :=
  ⟨by decide, by decide, by decide, by decide, by decide,
    tamper_detection rustType (by decide) [] (by decide) 8 0 (by decide)
      (by decide) (by decide)⟩
